import Mathlib

/-!
Verification development for the ACM-Compass repository.

The repository is a TypeScript CRUD tracker (Express server `server/src/index.ts`,
data layer `data.ts`, React page `web/src/pages/ProblemsPage.tsx`).  This file
gives a shallow embedding of the record normalizer, the contest normalizer, the
collection-store create/update operations, the solution file store and the
staging handlers, and proves/refutes the frozen claims about them.

JavaScript dynamic values are modelled by `JVal` (null, booleans, integers,
NaN, strings, arrays); record fields are `Option JVal`, where `none` models an
absent key (or `undefined`).  JS coercions used by the code (`String(x)`,
truthiness, `x == null`, `parseInt(s, 10)`, `.trim()`, `.toLowerCase()`) are
embedded explicitly below.
-/

/-- JavaScript runtime values, as far as the data layer inspects them.
Numbers are restricted to integers plus `NaN` (the values producible by
`parseInt` and by JSON integer literals). -/
inductive JVal where
  | null : JVal
  | bool : Bool → JVal
  | num : Int → JVal
  | nan : JVal
  | str : String → JVal
  | arr : List JVal → JVal
deriving Repr

/-- JS truthiness: `null`, `false`, `0`, `NaN` and `""` are falsy. -/
def truthy : JVal → Bool
  | .null => false
  | .bool b => b
  | .num n => decide (n ≠ 0)
  | .nan => false
  | .str s => decide (s ≠ "")
  | .arr _ => true

/-- Truthiness of an optional field (`undefined` is falsy). -/
def truthyO : Option JVal → Bool
  | none => false
  | some v => truthy v

/-- JS loose `x == null`, true exactly for `null` and `undefined`. -/
def isNullish : Option JVal → Bool
  | none => true
  | some .null => true
  | some _ => false

-- ----- decimal digits (for `String(number)` and `parseInt`) -----

/-- Little-endian base-10 digits of a natural number, with explicit fuel so the
definition is structural (and hence reduces in the kernel). -/
def natDigitsAux : Nat → Nat → List Nat
  | 0, _ => []
  | _ + 1, 0 => []
  | fuel + 1, n + 1 => ((n + 1) % 10) :: natDigitsAux fuel ((n + 1) / 10)

/-- Little-endian base-10 digits of `n` (empty for `0`). -/
def natDigitsLE (n : Nat) : List Nat := natDigitsAux n n

/-- Value of a little-endian base-10 digit list. -/
def ofDigitsLE : List Nat → Nat
  | [] => 0
  | d :: t => d + 10 * ofDigitsLE t

/-- Plain decimal string for a natural number, digit characters most
significant first. -/
def natStr (n : Nat) : String :=
  ⟨if n = 0 then ['0'] else (natDigitsLE n).reverse.map Nat.digitChar⟩

/-- ECMAScript exponential notation for an integral number `n ≥ 10^21`:
significant digits (trailing zeros stripped) as `d` or `d.dd…`, followed by
`e+` and the decimal exponent — e.g. `String(1e21) = "1e+21"`,
`String(1.5e21) = "1.5e+21"`. -/
def expNatStr (n : Nat) : String :=
  let ds := natDigitsLE n
  let k := ds.length - 1
  let m := (ds.dropWhile (· = 0)).reverse.map Nat.digitChar
  match m with
  | [] => "0"
  | [c] => String.singleton c ++ "e+" ++ natStr k
  | c :: rest => String.singleton c ++ "." ++ ⟨rest⟩ ++ "e+" ++ natStr k

/-- JS `String(n)` for a non-negative integral number: plain decimal below
`10^21`, exponential notation from `10^21` on (ECMAScript
`Number::toString`).  The model keeps integers exact instead of rounding to
IEEE doubles, so it agrees with the program wherever the double arithmetic
is exact — in particular throughout the safe-integer range `|n| < 2^53`,
and at `10^21` itself; theorems that need the `parseInt`/`String` round
trip are restricted to the safe range accordingly. -/
def natStrJS (n : Nat) : String :=
  if n < 10 ^ 21 then natStr n else expNatStr n

/-- JS `String(n)` for an integer (a leading minus sign when negative). -/
def intStr (n : Int) : String :=
  if n < 0 then "-" ++ natStrJS n.natAbs else natStrJS n.natAbs

mutual
/-- JS `String(v)` for the modelled values: `String(null) = "null"` etc.;
arrays are joined with commas, `null` elements becoming empty strings. -/
def jsToString : JVal → String
  | .null => "null"
  | .bool b => if b then "true" else "false"
  | .num n => intStr n
  | .nan => "NaN"
  | .str s => s
  | .arr xs => String.intercalate "," (jsArrStrings xs)

/-- Element strings of a JS array for `Array.prototype.toString`. -/
def jsArrStrings : List JVal → List String
  | [] => []
  | .null :: t => "" :: jsArrStrings t
  | v :: t => jsToString v :: jsArrStrings t
end

/-- Accumulate a decimal digit character (JS `parseInt` inner loop). -/
def digitsToNat (ds : List Char) : Nat :=
  ds.foldl (fun a c => a * 10 + (c.toNat - 48)) 0

/-- JS `parseInt(s, 10)`: skip leading whitespace, optional sign, then the
longest prefix of decimal digits; `none` models the `NaN` result when no
digit is found.  `parseInt` never throws.  The result is kept as an exact
integer; the program returns an IEEE double, which loses precision from
`2^53` on, so round-trip facts below carry an explicit safe-range bound. -/
def parseIntJS (s : String) : Option Int :=
  let cs := s.toList.dropWhile Char.isWhitespace
  let sign : Int := if cs.head? = some '-' then -1 else 1
  let body := if cs.head? = some '-' ∨ cs.head? = some '+' then cs.tail else cs
  let ds := body.takeWhile Char.isDigit
  if ds.isEmpty then none
  else some (sign * (digitsToNat ds : Int))

/-- JS `s.trim()` via character lists (ASCII whitespace). -/
def jsTrim (s : String) : String :=
  ⟨((s.toList.dropWhile Char.isWhitespace).reverse.dropWhile Char.isWhitespace).reverse⟩

/-- JS `s.toLowerCase()` (ASCII). -/
def jsLower (s : String) : String := ⟨s.toList.map Char.toLower⟩

/-- Drop trailing characters satisfying `p` (via reversal). -/
def rtrimChars (p : Char → Bool) (l : List Char) : List Char :=
  ((l.reverse).dropWhile p).reverse

/-- Characters of a JS-trimmed string: leading then trailing whitespace dropped. -/
def trimChars (p : Char → Bool) (l : List Char) : List Char :=
  rtrimChars p (l.dropWhile p)

-- ----- Record Normalizer (data.ts, normalizeRecord) -----

/-- `VALID_UNSOLVED_STAGES` from `data.ts`: not-viewed, viewed-no-idea,
approach-known-not-implemented. -/
def VALID_UNSOLVED_STAGES : List String := ["未看题", "已看题无思路", "知道做法未实现"]

/-- `VALID_UNSOLVED_STAGES.includes(stage)` (strict equality on strings). -/
def isValidStage : JVal → Bool
  | .str s => VALID_UNSOLVED_STAGES.contains s
  | _ => false

/-- JS `String(x || '')` for an optional field. -/
def jsOrEmpty (v : Option JVal) : String :=
  match v with
  | some w => if truthy w then jsToString w else ""
  | none => ""

/-- Lines 47-50 of `data.ts`: keep `solved` when the key is present, otherwise
derive it from the legacy `status` field
(`solved := lowercase(String(status || '')) == 'done'`). -/
def deriveSolved (solved status : Option JVal) : Option JVal :=
  match solved with
  | some v => some v
  | none => some (.bool (decide (jsLower (jsOrEmpty status) = "done")))

/-- Lines 52-59: default an absent `unsolved_stage` to null; coerce a present
value outside the enumeration to null. -/
def normStage (stage : Option JVal) : Option JVal :=
  match stage with
  | none => some .null
  | some v => if isValidStage v then some v else some .null

/-- JS `String(v).trim() || null`. -/
def trimOrNull (v : JVal) : JVal :=
  let t := jsTrim (jsToString v)
  if t = "" then .null else .str t

/-- Lines 61-64: trim a present non-null `unsolved_custom_label`, coercing the
empty result to null; null and undefined are kept as they are. -/
def normLabel : Option JVal → Option JVal
  | none => none
  | some .null => some .null
  | some v => some (trimOrNull v)

/-- Lines 67-69: default absent or null `tags` to an empty array. -/
def defaultTags : Option JVal → Option JVal
  | none => some (.arr [])
  | some .null => some (.arr [])
  | some v => some v

/-- Lines 71-77: `result.pass_count = parseInt(String(result.pass_count), 10)`
when the key is present and non-null.  `parseInt` never throws, so the
`catch` branch assigning null is unreachable and an unparseable value
becomes `NaN`. -/
def normPass : Option JVal → Option JVal
  | none => none
  | some .null => some .null
  | some v =>
      some (match parseIntJS (jsToString v) with
        | some n => .num n
        | none => .nan)

/-- Lines 79-86: migrate legacy `owner` into a nullish `assignee`, then trim a
non-nullish assignee, coercing the empty result to null. -/
def normAssignee (assignee owner : Option JVal) : Option JVal :=
  let a1 := if isNullish assignee && truthyO owner then owner else assignee
  match a1 with
  | none => none
  | some .null => some .null
  | some v => some (trimOrNull v)

/-- A raw problem record (`Record<string, unknown>` in `data.ts`).  The named
fields are the ones the data layer reads or writes; `rest` carries all other
keys, which every operation copies verbatim.  `none` models an absent key. -/
structure ProblemRec where
  id : Option JVal := none
  title : Option JVal := none
  notes : Option JVal := none
  created_at : Option JVal := none
  updated_at : Option JVal := none
  has_solution : Option JVal := none
  owner : Option JVal := none
  status : Option JVal := none
  solved : Option JVal := none
  unsolved_stage : Option JVal := none
  unsolved_custom_label : Option JVal := none
  tags : Option JVal := none
  pass_count : Option JVal := none
  assignee : Option JVal := none
  rest : List (String × JVal) := []
deriving Repr

/-- `normalizeRecord` from `data.ts` (lines 40-94).  It deletes
`has_solution` and `owner`, derives `solved` from a legacy `status` when
absent, validates `unsolved_stage`, trims `unsolved_custom_label`, defaults
`tags`, coerces `pass_count` through `parseInt`, migrates and trims
`assignee`, and finally (lines 88-91) forces both unsolved fields to null
whenever `solved` is truthy. -/
def normalizeRecord (r : ProblemRec) : ProblemRec :=
  let solved := deriveSolved r.solved r.status
  let sT := truthyO solved
  { r with
    has_solution := none,
    owner := none,
    solved := solved,
    unsolved_stage := if sT then some JVal.null else normStage r.unsolved_stage,
    unsolved_custom_label :=
      if sT then some JVal.null else normLabel r.unsolved_custom_label,
    tags := defaultTags r.tags,
    pass_count := normPass r.pass_count,
    assignee := normAssignee r.assignee r.owner }

-- ----- fixed-point characterisation of normalized records -----

/-- Is this value the JS `null`? -/
def isNullVal : JVal → Bool
  | .null => true
  | _ => false

/-- The field value is absent, null, or a nonempty trimmed string. -/
def trimmedOpt : Option JVal → Bool
  | none => true
  | some .null => true
  | some (.str t) => decide (jsTrim t = t) && decide (t ≠ "")
  | some _ => false

/-- Shape of a normalized `unsolved_stage`: present, and null (always, when
`solved` is truthy) or a member of the enumeration. -/
def stageNormd (sT : Bool) : Option JVal → Bool
  | some v => if sT then isNullVal v else (isNullVal v || isValidStage v)
  | none => false

/-- Shape of a normalized `unsolved_custom_label`. -/
def labelNormd (sT : Bool) (o : Option JVal) : Bool :=
  if sT then (match o with | some .null => true | _ => false) else trimmedOpt o

/-- Shape of normalized `tags`: present and non-null. -/
def tagsNormd : Option JVal → Bool
  | some v => !isNullVal v
  | none => false

/-- Shape of a *stable* normalized `pass_count`: absent, null, `NaN`, or an
integer within the JS safe range `|n| < 2^53` — where the program's double
arithmetic is exact and `String()` prints plain decimal, so a second
`parseInt(String(n))` reads the value back.  An integer at or beyond
`10^21` is *not* a fixed point: `String()` switches to exponential
notation and re-parsing truncates it (see the C3 counterexample). -/
def passNormd : Option JVal → Bool
  | none => true
  | some .null => true
  | some (.num n) => decide (n.natAbs < 2 ^ 53)
  | some .nan => true
  | some _ => false

/-- The coerced `pass_count` of a record is stable under re-normalization:
absent, null, unparseable, or parsing to a safe-range integer. -/
def passCountStable (pc : Option JVal) : Bool :=
  passNormd (normPass pc)

/-- A record is in the image of `normalizeRecord` exactly when this holds. -/
def NormalizedRec (r : ProblemRec) : Prop :=
  r.has_solution = none ∧ r.owner = none ∧ r.solved.isSome = true ∧
  stageNormd (truthyO r.solved) r.unsolved_stage = true ∧
  labelNormd (truthyO r.solved) r.unsolved_custom_label = true ∧
  tagsNormd r.tags = true ∧ passNormd r.pass_count = true ∧
  trimmedOpt r.assignee = true

-- ----- Collection Store: problems (data.ts) -----

/-- `saveProblems` (lines 112-119): strip the derived `has_solution` from
every record before writing the JSON array. -/
def saveProblems (items : List ProblemRec) : List ProblemRec :=
  items.map (fun r => { r with has_solution := none })

/-- `loadProblems` (lines 96-110): parse the stored array, normalize every
record, and attach the derived `has_solution` computed from the solution
file store (`sol` is `solutionExists` on the record's id). -/
def loadProblems (file : List ProblemRec) (sol : Option JVal → Bool) : List ProblemRec :=
  file.map (fun r =>
    let n := normalizeRecord r
    { n with has_solution := some (.bool (sol n.id)) })

/-- `createProblem` (lines 121-136): build
`{ id: uuidv4(), created_at: now, updated_at: now, ...data, has_solution: false }`
— the input spread comes after the generated fields, so input keys override
them — push it, and save.  Returns the new record and the array passed to
`saveProblems`. -/
def createProblem (genId now : String) (items : List ProblemRec)
    (data : ProblemRec) : ProblemRec × List ProblemRec :=
  let r : ProblemRec := {
    id := some (data.id.getD (.str genId)),
    title := data.title,
    notes := data.notes,
    created_at := some (data.created_at.getD (.str now)),
    updated_at := some (data.updated_at.getD (.str now)),
    has_solution := some (.bool false),
    owner := data.owner,
    status := data.status,
    solved := data.solved,
    unsolved_stage := data.unsolved_stage,
    unsolved_custom_label := data.unsolved_custom_label,
    tags := data.tags,
    pass_count := data.pass_count,
    assignee := data.assignee,
    rest := data.rest }
  (r, items ++ [r])

/-- The merge `{...old, ...data, updated_at: now}` performed by
`updateProblem` (lines 145-149) on the record found at the target index:
keys present in `data` override `old`, and `updated_at` is refreshed. -/
def updateMerge (old data : ProblemRec) (now : String) : ProblemRec :=
  { id := data.id.or old.id,
    title := data.title.or old.title,
    notes := data.notes.or old.notes,
    created_at := data.created_at.or old.created_at,
    updated_at := some (.str now),
    has_solution := data.has_solution.or old.has_solution,
    owner := data.owner.or old.owner,
    status := data.status.or old.status,
    solved := data.solved.or old.solved,
    unsolved_stage := data.unsolved_stage.or old.unsolved_stage,
    unsolved_custom_label := data.unsolved_custom_label.or old.unsolved_custom_label,
    tags := data.tags.or old.tags,
    pass_count := data.pass_count.or old.pass_count,
    assignee := data.assignee.or old.assignee,
    rest := data.rest ++ old.rest.filter (fun kv => !(data.rest.any (fun kv2 => kv2.1 == kv.1))) }

-- ----- Solution File Store (data.ts) and the UI submit rule -----

/-- The solutions directory as a map from problem id to Markdown content. -/
def SolStore := String → Option String

/-- `solutionExists` (lines 202-204). -/
def solutionExists (store : SolStore) (problemId : String) : Bool :=
  (store problemId).isSome

/-- `writeSolution` (lines 212-214): unconditionally writes the file. -/
def writeSolution (store : SolStore) (problemId : String) (markdown : String) : SolStore :=
  fun k => if k = problemId then some markdown else store k

/-- `deleteSolution` (lines 216-221): removes the file when present. -/
def deleteSolution (store : SolStore) (problemId : String) : SolStore :=
  fun k => if k = problemId then none else store k

/-- The solution half of `handleSubmit` in `ProblemsPage.tsx` (editing
branch, lines 128-133): `if (solution.trim()) saveSolution(id, solution.trim())
else deleteSolution(id)` — blank content means delete. -/
def submitSolution (store : SolStore) (problemId : String) (solution : String) : SolStore :=
  if jsTrim solution ≠ "" then writeSolution store problemId (jsTrim solution)
  else deleteSolution store problemId

-- ----- Contest Management (data.ts, normalizeContest) -----

/-- `LETTERS` from `types.ts`. -/
def LETTERS : String := "ABCDEFGHIJKLMNOPQRSTUVWXYZ"

/-- `LETTERS[i]` — the one-character string at index `i`; JS indexing out of
range yields `undefined`, modelled as `""` (unreachable below since the
loop bound is clamped to at most 26). -/
def letterAt (i : Nat) : String :=
  match LETTERS.toList.get? i with
  | some c => String.singleton c
  | none => ""

/-- A raw element of a contest's `problems` array. -/
structure ContestProblemRaw where
  pass_count : Option JVal := none
  attempt_count : Option JVal := none
  my_status : Option JVal := none
deriving Repr

/-- A normalized `ContestProblem` (`types.ts`). -/
structure ContestProblem where
  letter : String
  pass_count : Int
  attempt_count : Int
  my_status : String
deriving Repr, DecidableEq

/-- `parseInt(String(p.pass_count || 0), 10) || 0` (lines 247-248): falsy
values default to 0 before parsing, and a `NaN` parse result collapses
to 0. -/
def coerceCount (v : Option JVal) : Int :=
  let base : JVal := match v with
    | some w => if truthy w then w else .num 0
    | none => .num 0
  match parseIntJS (jsToString base) with
  | some n => n
  | none => 0

/-- Lines 249-251: keep `my_status` only when it is one of the three
enumeration strings, else `unsubmitted`. -/
def coerceStatus (v : Option JVal) : String :=
  match v with
  | some (.str s) =>
      if s = "ac" ∨ s = "attempted" ∨ s = "unsubmitted" then s else "unsubmitted"
  | _ => "unsubmitted"

/-- `Math.max(1, Math.min(26, parseInt(String(total || 1), 10)))`
(line 229).  `parseInt` never throws, so the `catch` assigning 1 is
unreachable; an unparseable value gives `NaN` (modelled `none`), which
`Math.min`/`Math.max` propagate. -/
def clampTotal (tp : Option JVal) : Option Int :=
  let base : JVal := match tp with
    | some v => if truthy v then v else .num 1
    | none => .num 1
  match parseIntJS (jsToString base) with
  | some t => some (max 1 (min 26 t))
  | none => none

/-- `normalizeContest` (lines 225-258) restricted to the two fields it
rewrites.  The element list uses `none` for falsy (null) entries of the raw
array.  The loop `for (i = 0; i < total; i++)` runs zero times when the
total is `NaN`. -/
def normalizeContest (tp : Option JVal) (probs : List (Option ContestProblemRaw)) :
    Option Int × List ContestProblem :=
  let t := clampTotal tp
  let count := match t with
    | some v => v.toNat
    | none => 0
  (t, (List.range count).map (fun i =>
    match probs.get? i with
    | some (some p) =>
        { letter := letterAt i,
          pass_count := coerceCount p.pass_count,
          attempt_count := coerceCount p.attempt_count,
          my_status := coerceStatus p.my_status }
    | _ =>
        { letter := letterAt i,
          pass_count := 0,
          attempt_count := 0,
          my_status := "unsubmitted" }))

-- ----- Import Staging Area (server/src/index.ts) -----

/-- One entry of the `problems` array of `PendingProblemsData`
(`index.ts` lines 207-223). -/
structure StagedProblem where
  letter : String
  title : String
  solved : Bool
  unsolved_stage : Option String
  unsolved_custom_label : Option String
  pass_count : Option Int
  attempt_count : Option Int
  notes : Option String
deriving Repr, DecidableEq

/-- The staged problem batch (`PendingProblemsData`). -/
structure PendingProblems where
  contestId : String
  source : String
  problems : List StagedProblem
deriving Repr, DecidableEq

/-- One entry of a staged contest snapshot's `problems` array (the
bookmarklet's whole-contest payload). -/
structure SnapProblem where
  letter : String
  my_status : String
deriving Repr, DecidableEq

/-- The staged contest snapshot (`ImportContestBody` after unwrapping). -/
structure PendingContest where
  name : Option String := none
  total_problems : Option Int := none
  problems : Option (List SnapProblem) := none
  user_rank : Option String := none
deriving Repr, DecidableEq

/-- The two module-level staging variables of `index.ts`
(`pendingContestData`, `pendingProblemsData`). -/
structure ServerState where
  pendingContestData : Option PendingContest := none
  pendingProblemsData : Option PendingProblems := none
deriving Repr, DecidableEq

/-- Response outcome of a staging submission: HTTP 200, the 400 validation
responses, or a 500 from an exception escaping to the error middleware. -/
inductive StagingResp where
  | ok : StagingResp
  | validationError : StagingResp
  | serverError : StagingResp
deriving Repr, DecidableEq

/-- The raw `problems` value of an `import_problems` body.  `req.body` is
cast unchecked, so besides a proper array the field can hold any JSON
value; the handler's only checks are truthiness and `length === 0`.  A
string stands in for the malformed shapes: like a number or a plain
object it is not an array, and like them it can pass the length check
(a nonzero-length string, or a shape whose `length` is `undefined`,
compares `=== 0` as false). -/
inductive RawProblems where
  | arr : List StagedProblem → RawProblems
  | str : String → RawProblems
deriving Repr, DecidableEq

/-- JS truthiness of a raw `problems` value (arrays are always truthy). -/
def rawTruthy : RawProblems → Bool
  | .arr _ => true
  | .str s => decide (s ≠ "")

/-- The handler's `problems.length === 0` test. -/
def rawLengthEqZero : RawProblems → Bool
  | .arr xs => xs.isEmpty
  | .str s => decide (s.length = 0)

/-- The staged problem batch as the module variable actually holds it:
whatever `problems` value the accepted submission carried. -/
structure RawPendingProblems where
  contestId : String
  source : String
  problems : RawProblems
deriving Repr, DecidableEq

/-- The two staging variables, with the problem batch held raw. -/
structure RawServerState where
  pendingContestData : Option PendingContest := none
  pendingProblemsData : Option RawPendingProblems := none
deriving Repr, DecidableEq

/-- The `import_problems` handler (lines 227-246).  The validation is
`!contestId || !problems || problems.length === 0` — presence, truthiness
and non-emptiness only, never the shape: a truthy `problems` whose length
check passes is staged verbatim, well-formed or not. -/
def importProblemsJS (st : RawServerState) (contestId : Option String)
    (source : String) (problems : Option RawProblems) :
    RawServerState × StagingResp :=
  match contestId, problems with
  | some cid, some ps =>
      if cid = "" ∨ ¬ rawTruthy ps ∨ rawLengthEqZero ps then (st, .validationError)
      else ({ st with pendingProblemsData := some ⟨cid, source, ps⟩ }, .ok)
  | _, _ => (st, .validationError)

/-- The merge loop of `import_standings` (lines 279-287): for every staged
problem whose letter occurs in `stats`, overwrite its counts. -/
def mergeStats (stats : String → Option (Int × Int)) (p : StagedProblem) : StagedProblem :=
  match stats p.letter with
  | some s => { p with pass_count := some s.1, attempt_count := some s.2 }
  | none => p

/-- The `import_standings` handler (lines 249-298): reject a falsy
`contestId`, a missing staged batch, or a contest-id mismatch; otherwise
run the merge loop over the staged batch.  If a malformed (non-array)
batch was staged, `problems.forEach` is undefined and the thrown TypeError
reaches the error middleware as a 500, before any mutation. -/
def importStandingsJS (st : RawServerState) (contestId : Option String)
    (stats : String → Option (Int × Int)) : RawServerState × StagingResp :=
  match contestId with
  | none => (st, .validationError)
  | some cid =>
      if cid = "" then (st, .validationError)
      else
        match st.pendingProblemsData with
        | none => (st, .validationError)
        | some pd =>
            if pd.contestId ≠ cid then (st, .validationError)
            else
              match pd.problems with
              | .arr xs =>
                  let merged : RawPendingProblems :=
                    { pd with problems := .arr (xs.map (mergeStats stats)) }
                  ({ st with pendingProblemsData := some merged }, .ok)
              | .str _ => (st, .serverError)

/-- `contestStatusMap` built by the `confirm_import_contest` handler
(lines 392-398): a JS object keyed by letter, later assignments winning. -/
def contestStatusMap (snap : Option PendingContest) : String → Option String :=
  match snap with
  | some c =>
      (c.problems.getD []).foldl
        (fun m p => fun l => if l = p.letter then some p.my_status else m l)
        (fun _ => none)
  | none => fun _ => none

/-- The per-problem backfill of the confirm loop (lines 436-446):
`ac` forces solved with a null stage, `attempted` forces unsolved at the
approach-known-not-implemented stage, anything else leaves the problem
untouched. -/
def applyContestStatus (m : String → Option String) (p : StagedProblem) : StagedProblem :=
  match m p.letter with
  | some s =>
      if s = "ac" then { p with solved := true, unsolved_stage := none }
      else if s = "attempted" then
        { p with solved := false, unsolved_stage := some "知道做法未实现" }
      else p
  | none => p

/-- Result reported for the contest half of a combined confirm. -/
structure ContestHalfResult where
  success : Bool
deriving Repr, DecidableEq

/-- Result reported for the problems half of a combined confirm. -/
structure ProblemsHalfResult where
  success : Bool
  successCount : Nat
  failCount : Nat
deriving Repr, DecidableEq

/-- Response of `confirm_import_contest`: per-half results when attempted,
and `ok = false` exactly for the 400 "nothing to import" case. -/
structure ConfirmResponse where
  contest : Option ContestHalfResult
  problems : Option ProblemsHalfResult
  ok : Bool
deriving Repr, DecidableEq

/-- The `confirm_import_contest` handler (lines 386-478).  `contestOk`
tells whether `createContest` succeeds (its `try`/`catch`), `problemOk`
whether `createProblem` succeeds for a given processed problem.  The
returned list is the sequence of `createProblem` calls made for the
problems half, after the status backfill.  Note that both staging
variables are cleared unconditionally after their half is attempted
(lines 424 and 464), whether or not the commit succeeded. -/
def confirmImportContest (contestOk : Bool) (problemOk : StagedProblem → Bool)
    (st : ServerState) : ServerState × ConfirmResponse × List StagedProblem :=
  let m := contestStatusMap st.pendingContestData
  let contestRes : Option ContestHalfResult :=
    match st.pendingContestData with
    | some _ => some ⟨contestOk⟩
    | none => none
  let stC : ServerState := { st with pendingContestData := none }
  let (problemsRes, created) :=
    match stC.pendingProblemsData with
    | some pd =>
        let processed := pd.problems.map (applyContestStatus m)
        let succ := (processed.filter (fun p => problemOk p)).length
        let failc := (processed.filter (fun p => !problemOk p)).length
        (some ⟨decide (failc = 0), succ, failc⟩, processed)
    | none => (none, [])
  let stP : ServerState := { stC with pendingProblemsData := none }
  (stP, ⟨contestRes, problemsRes, contestRes.isSome || problemsRes.isSome⟩, created)

-- ----- round-trip facts for the integer coercions -----

theorem ofDigitsLE_natDigitsAux (fuel n : Nat) (h : n ≤ fuel) :
    ofDigitsLE (natDigitsAux fuel n) = n := by
  induction fuel generalizing n with
  | zero => interval_cases n; simp [natDigitsAux, ofDigitsLE]
  | succ fuel ih =>
    cases n with
    | zero => simp [natDigitsAux, ofDigitsLE]
    | succ m =>
      have hdiv : (m + 1) / 10 ≤ fuel := by
        have := Nat.div_lt_self (Nat.succ_pos m) (by norm_num : 1 < 10)
        omega
      simp only [natDigitsAux, ofDigitsLE, ih _ hdiv]
      omega

theorem ofDigitsLE_natDigitsLE (n : Nat) : ofDigitsLE (natDigitsLE n) = n :=
  ofDigitsLE_natDigitsAux n n le_rfl

theorem natDigitsAux_lt_ten (fuel n : Nat) : ∀ d ∈ natDigitsAux fuel n, d < 10 := by
  induction fuel generalizing n with
  | zero => simp [natDigitsAux]
  | succ fuel ih =>
    cases n with
    | zero => simp [natDigitsAux]
    | succ m =>
      intro d hd
      simp only [natDigitsAux, List.mem_cons] at hd
      rcases hd with rfl | hd
      · exact Nat.mod_lt _ (by norm_num)
      · exact ih _ d hd

theorem natDigitsLE_lt_ten (n : Nat) : ∀ d ∈ natDigitsLE n, d < 10 :=
  natDigitsAux_lt_ten n n

theorem natDigitsLE_ne_nil (n : Nat) (h : n ≠ 0) : natDigitsLE n ≠ [] := by
  cases n with
  | zero => exact absurd rfl h
  | succ m => simp [natDigitsLE, natDigitsAux]

theorem digitChar_isDigit (d : Nat) (h : d < 10) : (Nat.digitChar d).isDigit = true := by
  interval_cases d <;> decide

theorem digitChar_toNat (d : Nat) (h : d < 10) : (Nat.digitChar d).toNat = d + 48 := by
  interval_cases d <;> decide

theorem isDigit_not_ws (c : Char) (h : c.isDigit = true) : c.isWhitespace = false := by
  by_contra hw
  rw [Bool.not_eq_false] at hw
  simp only [Char.isWhitespace, Bool.or_eq_true, decide_eq_true_eq] at hw
  rcases hw with ((rfl | rfl) | rfl) | rfl <;> simp at h

theorem isDigit_ne_minus (c : Char) (h : c.isDigit = true) : c ≠ '-' := by
  intro hc; subst hc; simp at h

theorem isDigit_ne_plus (c : Char) (h : c.isDigit = true) : c ≠ '+' := by
  intro hc; subst hc; simp at h

theorem foldl_digitChars (L : List Nat) (hL : ∀ d ∈ L, d < 10) (a : Nat) :
    (L.reverse.map Nat.digitChar).foldl (fun acc c => acc * 10 + (c.toNat - 48)) a
      = a * 10 ^ L.length + ofDigitsLE L := by
  induction L generalizing a with
  | nil => simp [ofDigitsLE]
  | cons d t ih =>
    have hd : d < 10 := hL d (List.mem_cons_self d t)
    have ht : ∀ x ∈ t, x < 10 := fun x hx => hL x (List.mem_cons_of_mem d hx)
    simp only [List.reverse_cons, List.map_append, List.foldl_append, ih ht,
      List.map_cons, List.map_nil, List.foldl_cons, List.foldl_nil,
      digitChar_toNat d hd, ofDigitsLE, List.length_cons]
    ring_nf
    omega

theorem digitsToNat_digitChars (L : List Nat) (hL : ∀ d ∈ L, d < 10) :
    digitsToNat (L.reverse.map Nat.digitChar) = ofDigitsLE L := by
  have h := foldl_digitChars L hL 0
  simpa [digitsToNat] using h

/-- `parseIntJS` applied to a nonempty all-digit string reads off its value. -/
theorem parseIntJS_digits (cs : List Char) (hne : cs ≠ [])
    (hd : ∀ c ∈ cs, c.isDigit = true) :
    parseIntJS ⟨cs⟩ = some (digitsToNat cs : Int) := by
  have htake : cs.takeWhile Char.isDigit = cs :=
    List.takeWhile_eq_self_iff.mpr hd
  cases cs with
  | nil => exact absurd rfl hne
  | cons c t =>
    have hcd : c.isDigit = true := hd c (List.mem_cons_self c t)
    have hm : c ≠ '-' := isDigit_ne_minus c hcd
    have hp : c ≠ '+' := isDigit_ne_plus c hcd
    have hws : c.isWhitespace = false := isDigit_not_ws c hcd
    have htl : (⟨c :: t⟩ : String).toList = c :: t := rfl
    have hdrop : (c :: t).dropWhile Char.isWhitespace = c :: t := by
      simp [List.dropWhile_cons, hws]
    have h1 : (c = '-') = False := by simp [hm]
    have h2 : (c = '+') = False := by simp [hp]
    simp only [parseIntJS, htl, hdrop, List.head?_cons, Option.some.injEq, h1, h2,
      or_self, if_false, htake]
    rw [if_neg (by simp)]
    simp

/-- Round trip for natural numbers: parsing the decimal string gives back `n`. -/
theorem parseIntJS_natStr (n : Nat) : parseIntJS (natStr n) = some (n : Int) := by
  by_cases h0 : n = 0
  · subst h0; decide
  · have hdig := natDigitsLE_lt_ten n
    have hchars : ∀ c ∈ (natDigitsLE n).reverse.map Nat.digitChar, c.isDigit = true := by
      intro c hc
      simp only [List.mem_map, List.mem_reverse] at hc
      obtain ⟨d, hd, rfl⟩ := hc
      exact digitChar_isDigit d (hdig d hd)
    have hne : (natDigitsLE n).reverse.map Nat.digitChar ≠ [] := by
      simp [natDigitsLE_ne_nil n h0]
    have hparse := parseIntJS_digits _ hne hchars
    have hval : digitsToNat ((natDigitsLE n).reverse.map Nat.digitChar) = n := by
      rw [digitsToNat_digitChars (natDigitsLE n) hdig, ofDigitsLE_natDigitsLE]
    rw [natStr, if_neg h0, hparse, hval]

/-- Round trip for integers below the exponential-notation threshold:
`parseInt(String(n), 10) = n` whenever `|n| < 10^21`, the range where JS
prints plain decimal.  (From `10^21` on the round trip fails — see the C3
counterexample.) -/
theorem parseIntJS_intStr (n : Int) (hsafe : n.natAbs < 10 ^ 21) :
    parseIntJS (intStr n) = some n := by
  have hns : natStrJS n.natAbs = natStr n.natAbs := by
    rw [natStrJS, if_pos hsafe]
  rcases le_or_lt 0 n with hpos | hneg
  · rw [intStr, if_neg (by omega), hns, parseIntJS_natStr]
    congr 1
    omega
  · rw [intStr, if_pos hneg, hns]
    have h0 : n.natAbs ≠ 0 := by omega
    have hdig := natDigitsLE_lt_ten n.natAbs
    have hchars : ∀ c ∈ (natDigitsLE n.natAbs).reverse.map Nat.digitChar,
        c.isDigit = true := by
      intro c hc
      simp only [List.mem_map, List.mem_reverse] at hc
      obtain ⟨d, hd, rfl⟩ := hc
      exact digitChar_isDigit d (hdig d hd)
    have hne : (natDigitsLE n.natAbs).reverse.map Nat.digitChar ≠ [] := by
      simp [natDigitsLE_ne_nil _ h0]
    have htake : ((natDigitsLE n.natAbs).reverse.map Nat.digitChar).takeWhile Char.isDigit
        = (natDigitsLE n.natAbs).reverse.map Nat.digitChar :=
      List.takeWhile_eq_self_iff.mpr hchars
    have htl : ("-" ++ natStr n.natAbs).toList
        = '-' :: (natDigitsLE n.natAbs).reverse.map Nat.digitChar := by
      rw [natStr, if_neg h0]
      rfl
    have hdrop : ('-' :: (natDigitsLE n.natAbs).reverse.map Nat.digitChar).dropWhile
        Char.isWhitespace = '-' :: (natDigitsLE n.natAbs).reverse.map Nat.digitChar := by
      simp [List.dropWhile_cons]
    have hval : digitsToNat ((natDigitsLE n.natAbs).reverse.map Nat.digitChar)
        = n.natAbs := by
      rw [digitsToNat_digitChars (natDigitsLE n.natAbs) hdig, ofDigitsLE_natDigitsLE]
    have hneEmpty : ((natDigitsLE n.natAbs).reverse.map Nat.digitChar).isEmpty = false := by
      cases hcase : (natDigitsLE n.natAbs).reverse.map Nat.digitChar with
      | nil => exact absurd hcase hne
      | cons a l => rfl
    simp only [parseIntJS, htl, hdrop, List.head?_cons, List.tail_cons,
      Option.some.injEq]
    simp only [true_or, if_true, htake]
    rw [if_neg (by simp [natDigitsLE_ne_nil _ h0]), hval]
    congr 1
    omega

-- ----- trim idempotence -----

theorem jsTrim_eq_trimChars (s : String) :
    jsTrim s = ⟨trimChars Char.isWhitespace s.toList⟩ := rfl

theorem dropWhile_head_false {p : Char → Bool} {l : List Char} {a : Char}
    {t : List Char} (h : l.dropWhile p = a :: t) : p a = false := by
  have hh := List.head?_dropWhile_not p l
  rw [h] at hh
  simpa using hh

theorem dropWhile_dropWhile (p : Char → Bool) (l : List Char) :
    (l.dropWhile p).dropWhile p = l.dropWhile p := by
  cases h : l.dropWhile p with
  | nil => simp
  | cons a t =>
    have ha := dropWhile_head_false h
    simp [List.dropWhile_cons, ha]

theorem rtrimChars_rtrimChars (p : Char → Bool) (l : List Char) :
    rtrimChars p (rtrimChars p l) = rtrimChars p l := by
  simp [rtrimChars, dropWhile_dropWhile]

theorem dropWhile_rtrimChars (p : Char → Bool) (l : List Char) :
    (rtrimChars p l).dropWhile p = rtrimChars p (l.dropWhile p) := by
  induction l with
  | nil => simp [rtrimChars]
  | cons a t ih =>
    by_cases ha : p a
    · cases hd : (t.reverse).dropWhile p with
      | nil =>
        have hall : ∀ x ∈ t.reverse, p x := List.dropWhile_eq_nil_iff.mp hd
        have ht : t.dropWhile p = [] :=
          List.dropWhile_eq_nil_iff.mpr (fun x hx => hall x (List.mem_reverse.mpr hx))
        have h1 : rtrimChars p (a :: t) = [] := by
          simp [rtrimChars, List.reverse_cons, List.dropWhile_append, hd, ha]
        rw [h1]
        simp [List.dropWhile_cons, ha, ht, rtrimChars]
      | cons b d =>
        have h1 : rtrimChars p (a :: t) = a :: (b :: d).reverse := by
          simp only [rtrimChars, List.reverse_cons, List.dropWhile_append, hd]
          simp
        rw [h1]
        have h2 : (a :: (b :: d).reverse).dropWhile p = ((b :: d).reverse).dropWhile p := by
          simp [List.dropWhile_cons, ha]
        have h3 : rtrimChars p t = (b :: d).reverse := by
          simp [rtrimChars, hd]
        rw [h2, ← h3, ih]
        simp [List.dropWhile_cons, ha]
    · have hdrop : (a :: t).dropWhile p = a :: t := by
        simp [List.dropWhile_cons, ha]
      rw [hdrop]
      cases hd : (t.reverse).dropWhile p with
      | nil =>
        have h1 : rtrimChars p (a :: t) = [a] := by
          simp [rtrimChars, List.reverse_cons, List.dropWhile_append, hd, ha]
        rw [h1]
        simp [List.dropWhile_cons, ha]
      | cons b d =>
        have h1 : rtrimChars p (a :: t) = a :: (b :: d).reverse := by
          simp only [rtrimChars, List.reverse_cons, List.dropWhile_append, hd]
          simp
        rw [h1]
        simp [List.dropWhile_cons, ha]

theorem trimChars_trimChars (p : Char → Bool) (l : List Char) :
    trimChars p (trimChars p l) = trimChars p l := by
  unfold trimChars
  rw [dropWhile_rtrimChars, dropWhile_dropWhile, rtrimChars_rtrimChars]

/-- JS `trim` is idempotent. -/
theorem jsTrim_idem (s : String) : jsTrim (jsTrim s) = jsTrim s :=
  congrArg (fun l => (⟨l⟩ : String))
    (trimChars_trimChars Char.isWhitespace s.toList)

-- ----- fixed-point lemmas for the record normalizer -----

theorem isNullVal_eq_null {v : JVal} (h : isNullVal v = true) : v = .null := by
  cases v <;> simp [isNullVal] at h ⊢

theorem jsToString_str (t : String) : jsToString (.str t) = t := rfl

theorem trimmedOpt_trimOrNull (v : JVal) : trimmedOpt (some (trimOrNull v)) = true := by
  unfold trimOrNull
  by_cases h : jsTrim (jsToString v) = ""
  · simp [h, trimmedOpt]
  · simp [h, trimmedOpt, jsTrim_idem]

theorem trimOrNull_fixed (t : String) (h1 : jsTrim t = t) (h2 : t ≠ "") :
    trimOrNull (.str t) = .str t := by
  unfold trimOrNull
  rw [jsToString_str, h1, if_neg h2]

theorem deriveSolved_isSome (s st : Option JVal) : (deriveSolved s st).isSome = true := by
  cases s <;> simp [deriveSolved]

theorem stageNormd_out (sT : Bool) (s : Option JVal) :
    stageNormd sT (if sT then some JVal.null else normStage s) = true := by
  cases sT
  · cases s with
    | none => simp [normStage, stageNormd, isNullVal]
    | some v =>
      by_cases h : isValidStage v = true
      · simp [normStage, stageNormd, h]
      · simp [normStage, stageNormd, h, isNullVal]
  · simp [stageNormd, isNullVal]

theorem stageNormd_fixed (sT : Bool) (s : Option JVal)
    (h : stageNormd sT s = true) :
    (if sT then some JVal.null else normStage s) = s := by
  cases s with
  | none => simp [stageNormd] at h
  | some v =>
    revert h
    cases sT <;> intro h
    · simp only [stageNormd] at h
      rw [if_neg (by simp)] at h
      have h2 : isNullVal v = true ∨ isValidStage v = true := by simpa using h
      rcases h2 with h2 | h2
      · rw [isNullVal_eq_null h2]
        simp [normStage, isValidStage, VALID_UNSOLVED_STAGES]
      · simp [normStage, h2]
    · simp only [stageNormd] at h
      rw [if_pos trivial] at h
      rw [isNullVal_eq_null h]
      simp

theorem trimmedOpt_normLabel (l : Option JVal) : trimmedOpt (normLabel l) = true := by
  cases l with
  | none => rfl
  | some v =>
    cases v with
    | null => rfl
    | bool b => exact trimmedOpt_trimOrNull (.bool b)
    | num n => exact trimmedOpt_trimOrNull (.num n)
    | nan => exact trimmedOpt_trimOrNull .nan
    | str s => exact trimmedOpt_trimOrNull (.str s)
    | arr a => exact trimmedOpt_trimOrNull (.arr a)

theorem normLabel_fixed (l : Option JVal) (h : trimmedOpt l = true) :
    normLabel l = l := by
  cases l with
  | none => rfl
  | some v =>
    cases v with
    | null => rfl
    | str t =>
      simp only [trimmedOpt, Bool.and_eq_true, decide_eq_true_eq] at h
      simp [normLabel, trimOrNull_fixed t h.1 h.2]
    | bool b => simp [trimmedOpt] at h
    | num n => simp [trimmedOpt] at h
    | nan => simp [trimmedOpt] at h
    | arr a => simp [trimmedOpt] at h

theorem labelNormd_out (sT : Bool) (l : Option JVal) :
    labelNormd sT (if sT then some JVal.null else normLabel l) = true := by
  cases sT
  · simpa [labelNormd] using trimmedOpt_normLabel l
  · simp [labelNormd]

theorem labelNormd_fixed (sT : Bool) (l : Option JVal)
    (h : labelNormd sT l = true) :
    (if sT then some JVal.null else normLabel l) = l := by
  revert h
  cases sT <;> intro h
  · simp only [labelNormd] at h
    rw [if_neg (by simp)] at h
    simpa using normLabel_fixed l h
  · simp only [labelNormd] at h
    rw [if_pos trivial] at h
    cases l with
    | none => simp at h
    | some v => cases v <;> simp_all

theorem tagsNormd_out (o : Option JVal) : tagsNormd (defaultTags o) = true := by
  cases o with
  | none => simp [defaultTags, tagsNormd, isNullVal]
  | some v => cases v <;> simp [defaultTags, tagsNormd, isNullVal]

theorem tagsNormd_fixed (o : Option JVal) (h : tagsNormd o = true) :
    defaultTags o = o := by
  cases o with
  | none => simp [tagsNormd] at h
  | some v => cases v <;> simp_all [defaultTags, tagsNormd, isNullVal]

theorem parseIntJS_nanStr : parseIntJS "NaN" = none := by decide

theorem normPass_fixed (o : Option JVal) (h : passNormd o = true) :
    normPass o = o := by
  cases o with
  | none => rfl
  | some v =>
    cases v with
    | null => rfl
    | num n =>
      have hb : n.natAbs < 2 ^ 53 := by simpa [passNormd] using h
      have hb2 : n.natAbs < 10 ^ 21 := lt_trans hb (by norm_num)
      have hp : parseIntJS (jsToString (.num n)) = some n := parseIntJS_intStr n hb2
      simp [normPass, hp]
    | nan =>
      have hp : parseIntJS (jsToString .nan) = none := parseIntJS_nanStr
      simp [normPass, hp]
    | bool b => simp [passNormd] at h
    | str s => simp [passNormd] at h
    | arr a => simp [passNormd] at h

theorem normAssignee_eq_normLabel (a o : Option JVal) :
    normAssignee a o = normLabel (if isNullish a && truthyO o then o else a) := rfl

theorem normAssignee_none_owner (a : Option JVal) :
    normAssignee a none = normLabel a := by
  rw [normAssignee_eq_normLabel]
  simp [truthyO]

theorem normalizeRecord_normalized (r : ProblemRec)
    (hpass : passCountStable r.pass_count = true) :
    NormalizedRec (normalizeRecord r) := by
  refine ⟨rfl, rfl, deriveSolved_isSome r.solved r.status,
    stageNormd_out _ _, labelNormd_out _ _, tagsNormd_out _, hpass, ?_⟩
  show trimmedOpt (normAssignee r.assignee r.owner) = true
  rw [normAssignee_eq_normLabel]
  exact trimmedOpt_normLabel _

theorem problemRec_update_eta (r : ProblemRec) (x1 x2 x3 x4 x5 x6 x7 x8 : Option JVal)
    (e1 : x1 = r.has_solution) (e2 : x2 = r.owner) (e3 : x3 = r.solved)
    (e4 : x4 = r.unsolved_stage) (e5 : x5 = r.unsolved_custom_label)
    (e6 : x6 = r.tags) (e7 : x7 = r.pass_count) (e8 : x8 = r.assignee) :
    ProblemRec.mk r.id r.title r.notes r.created_at r.updated_at
      x1 x2 r.status x3 x4 x5 x6 x7 x8 r.rest = r := by
  subst e1; subst e2; subst e3; subst e4; subst e5; subst e6; subst e7; subst e8
  rfl

theorem normalizeRecord_fixed (r : ProblemRec) (h : NormalizedRec r) :
    normalizeRecord r = r := by
  obtain ⟨h1, h2, h3, h4, h5, h6, h7, h8⟩ := h
  obtain ⟨v, hv⟩ := Option.isSome_iff_exists.mp h3
  have hsolved : deriveSolved r.solved r.status = r.solved := by
    rw [hv]; rfl
  have hassignee : normAssignee r.assignee r.owner = r.assignee := by
    rw [h2, normAssignee_none_owner, normLabel_fixed _ h8]
  rw [← hsolved] at h4 h5
  exact problemRec_update_eta r _ _ _ _ _ _ _ _ h1.symm h2.symm hsolved
    (stageNormd_fixed _ _ h4) (labelNormd_fixed _ _ h5)
    (tagsNormd_fixed _ h6) (normPass_fixed _ h7) hassignee

/-- The record normalizer is idempotent on records whose coerced
`pass_count` is stable (the normalizer itself always drops `has_solution`;
the derived flag is re-attached separately by `loadProblems`).  Without the
stability bound idempotence fails: a `pass_count` parsing to `10^21` or
more is printed in exponential notation and truncated by the second pass. -/
theorem normalizeRecord_idem (r : ProblemRec)
    (hpass : passCountStable r.pass_count = true) :
    normalizeRecord (normalizeRecord r) = normalizeRecord r :=
  normalizeRecord_fixed _ (normalizeRecord_normalized r hpass)

/-- Lines 88-91 of `data.ts`: a truthy normalized `solved` forces both
unsolved fields to null. -/
theorem normalizeRecord_solved_null (r : ProblemRec)
    (h : truthyO (normalizeRecord r).solved = true) :
    (normalizeRecord r).unsolved_stage = some JVal.null ∧
      (normalizeRecord r).unsolved_custom_label = some JVal.null := by
  have h2 : truthyO (deriveSolved r.solved r.status) = true := h
  exact ⟨by simp [normalizeRecord, h2], by simp [normalizeRecord, h2]⟩

-- ===== Claim theorems =====

/-- C2: the claim states that a present, non-null, unparseable `pass_count`
is set to null by normalization.  The code's `try { parseInt } catch { null }`
is a slip: JS `parseInt` never throws, it returns `NaN`, so the `catch`
assigning null is dead code and the unparseable value becomes `NaN` instead.
This theorem evaluates the normalizer at the failing input
`pass_count = "abc"`: the result is `NaN`, not null. -/
theorem claim_C2_pass_count_nan_not_null :
    (normalizeRecord { pass_count := some (.str "abc") }).pass_count
      = some JVal.nan ∧ JVal.nan ≠ JVal.null := by
  constructor
  · rfl
  · intro h
    exact JVal.noConfusion h

/-- C3 counterexample: the claimed unconditional idempotence fails in the
program.  At `pass_count = "1000000000000000000000"` (`10^21`) the first
normalization parses the exact value `10^21` (an exactly representable
double, so no rounding is involved), JS prints it as `"1e+21"`, and the
second normalization re-parses only the leading digit: `1`.  So
`normalize(normalize(x))` differs from `normalize(x)` on a mapping field. -/
theorem claim_C3_counterexample :
    (normalizeRecord { pass_count := some (.str "1000000000000000000000") }).pass_count = some (.num 1000000000000000000000) ∧
    (normalizeRecord (normalizeRecord { pass_count := some (.str "1000000000000000000000") })).pass_count = some (.num 1) ∧
    normalizeRecord (normalizeRecord { pass_count := some (.str "1000000000000000000000") })
      ≠ normalizeRecord { pass_count := some (.str "1000000000000000000000") } := by
  refine ⟨rfl, rfl, fun heq => ?_⟩
  have hfield := congrArg ProblemRec.pass_count heq
  have h1 : (normalizeRecord (normalizeRecord { pass_count := some (.str "1000000000000000000000") })).pass_count = some (JVal.num 1) := rfl
  have h2 : (normalizeRecord { pass_count := some (.str "1000000000000000000000") }).pass_count = some (.num 1000000000000000000000) := rfl
  rw [h1, h2] at hfield
  exact absurd (JVal.num.inj (Option.some.inj hfield)) (by decide)

/-- C3 amended: the record normalizer is idempotent on the mapping fields —
`normalize(normalize(x)) = normalize(x)` as full record equality (the
normalizer itself strips `has_solution`, which `loadProblems` recomputes
afterwards) — for every raw record whose `pass_count`, when present and
non-null, either fails to parse or parses to an integer within the JS
safe range `|n| < 2^53`; when it parses to `10^21` or beyond, JS prints
the value in exponential notation and the second normalization truncates
it, so idempotence fails there. -/
theorem claim_C3_idempotent_stable (r : ProblemRec)
    (hpass : passCountStable r.pass_count = true) :
    normalizeRecord (normalizeRecord r) = normalizeRecord r :=
  normalizeRecord_idem r hpass

/-- Witness for C3 amended: a record exercising the legacy-owner migration,
label trimming and a parseable safe-range `pass_count` is a fixed point of
the second normalization. -/
theorem claim_C3_witness :
    passCountStable (some (JVal.str "42")) = true ∧
    normalizeRecord (normalizeRecord { owner := some (.str " bob "), unsolved_custom_label := some (.str "  note "), pass_count := some (.str "42") })
      = normalizeRecord { owner := some (.str " bob "), unsolved_custom_label := some (.str "  note "), pass_count := some (.str "42") } :=
  ⟨by decide, claim_C3_idempotent_stable _ (by decide)⟩

/-- C4: for every raw record whose normalized `solved` value is truthy
(whether supplied directly or derived from the legacy `status` field),
normalization yields `unsolved_stage = null` and
`unsolved_custom_label = null`, regardless of the input values of those
fields. -/
theorem claim_C4_solved_forces_null (r : ProblemRec)
    (h : truthyO (normalizeRecord r).solved = true) :
    (normalizeRecord r).unsolved_stage = some JVal.null ∧
      (normalizeRecord r).unsolved_custom_label = some JVal.null :=
  normalizeRecord_solved_null r h

/-- Witness for C4 at a concrete record that supplies `solved = true`
together with non-null unsolved fields. -/
theorem claim_C4_witness :
    truthyO (normalizeRecord { solved := some (.bool true), unsolved_stage := some (.str "未看题"), unsolved_custom_label := some (.str "note") }).solved = true ∧
    ((normalizeRecord { solved := some (.bool true), unsolved_stage := some (.str "未看题"), unsolved_custom_label := some (.str "note") }).unsolved_stage = some JVal.null ∧
     (normalizeRecord { solved := some (.bool true), unsolved_stage := some (.str "未看题"), unsolved_custom_label := some (.str "note") }).unsolved_custom_label = some JVal.null) :=
  ⟨by decide, claim_C4_solved_forces_null _ (by decide)⟩

/-- C5: the claim states `total_problems` is always clamped to `[1, 26]` and
`problems.length == total_problems` after any create/update (both of which
route the record through `normalizeContest`).  As with C2 the
`try { parseInt } catch { total = 1 }` is a slip: `parseInt` never throws, so
an unparseable `total_problems` becomes `NaN`, `Math.max(1, Math.min(26, NaN))`
stays `NaN` (`none` here), and the synthesis loop `i < NaN` runs zero times.
This theorem evaluates the failing input `total_problems = "abc"`: the result
has a `NaN` total (not in `[1, 26]`) and an empty problems list (not of
length `total_problems`), where the dead `catch` shows 1 was intended. -/
theorem claim_C5_total_problems_nan :
    normalizeContest (some (.str "abc")) [] = (none, []) := by decide

/-- C1 counterexample: the claim says each staged half is cleared only upon
its own successful commit.  But `confirm_import_contest` sets
`pendingContestData = null` unconditionally after the `try`/`catch`
(line 424): with a staged snapshot whose `createContest` fails
(`contestOk = false`), the handler reports a failed contest half yet the
snapshot is cleared anyway. -/
theorem claim_C1_counterexample :
    (confirmImportContest false (fun _ => true) { pendingContestData := some { name := some "Contest", total_problems := some 5, problems := some [], user_rank := none }, pendingProblemsData := none }).2.1.contest = some ⟨false⟩ ∧
    (confirmImportContest false (fun _ => true) { pendingContestData := some { name := some "Contest", total_problems := some 5, problems := some [], user_rank := none }, pendingProblemsData := none }).1.pendingContestData = none := by
  exact ⟨rfl, rfl⟩

/-- C1 amended: in the combined confirm, each staged half that is present is
attempted and its result reported, regardless of the other half's presence or
commit outcome; and each half's staged state is cleared unconditionally once
the confirm runs — whether or not its own commit succeeded — not only on
success. -/
theorem claim_C1_halves_independent (contestOk : Bool)
    (problemOk : StagedProblem → Bool) (st : ServerState) :
    (confirmImportContest contestOk problemOk st).1.pendingContestData = none ∧
    (confirmImportContest contestOk problemOk st).1.pendingProblemsData = none ∧
    ((confirmImportContest contestOk problemOk st).2.1.contest).isSome
      = st.pendingContestData.isSome ∧
    ((confirmImportContest contestOk problemOk st).2.1.problems).isSome
      = st.pendingProblemsData.isSome := by
  obtain ⟨pc, pp⟩ := st
  cases pc <;> cases pp <;> simp [confirmImportContest]

/-- C6: during a combined confirm, every staged problem is passed through the
per-letter backfill before `createProblem`: the committed sequence is exactly
the staged batch mapped through `applyContestStatus` over the snapshot's
status map, and the backfill satisfies: `ac` forces `solved = true` with a
null stage, `attempted` forces `solved = false` with the
approach-known-not-implemented stage, and `unsubmitted` leaves the staged
problem untouched. -/
theorem claim_C6_status_backfill (contestOk : Bool)
    (problemOk : StagedProblem → Bool) (st : ServerState)
    (pd : PendingProblems) (hpd : st.pendingProblemsData = some pd) :
    (confirmImportContest contestOk problemOk st).2.2
        = pd.problems.map (applyContestStatus (contestStatusMap st.pendingContestData)) ∧
    (∀ (m : String → Option String) (p : StagedProblem),
      (m p.letter = some "ac" →
        applyContestStatus m p = { p with solved := true, unsolved_stage := none }) ∧
      (m p.letter = some "attempted" →
        applyContestStatus m p = { p with solved := false, unsolved_stage := some "知道做法未实现" }) ∧
      (m p.letter = some "unsubmitted" → applyContestStatus m p = p)) := by
  constructor
  · obtain ⟨pc, pp⟩ := st
    dsimp only at hpd
    subst hpd
    cases pc <;> simp [confirmImportContest]
  · intro m p
    refine ⟨fun h => ?_, fun h => ?_, fun h => ?_⟩ <;> simp [applyContestStatus, h]

/-- Witness for C6: the spec's own example — staged contest snapshot marking
letter A as `ac`, staged batch containing problem A originally unsolved —
commits problem A with `solved = true` and a null stage. -/
theorem claim_C6_witness :
    (confirmImportContest true (fun _ => true) { pendingContestData := some { name := some "C", total_problems := some 1, problems := some [{ letter := "A", my_status := "ac" }], user_rank := none }, pendingProblemsData := some { contestId := "c1", source := "qoj", problems := [{ letter := "A", title := "P", solved := false, unsolved_stage := some "未看题", unsolved_custom_label := none, pass_count := none, attempt_count := none, notes := none }] } }).2.2
      = [{ letter := "A", title := "P", solved := true, unsolved_stage := none, unsolved_custom_label := none, pass_count := none, attempt_count := none, notes := none }] := by
  have h := claim_C6_status_backfill true (fun _ => true)
    { pendingContestData := some { name := some "C", total_problems := some 1, problems := some [{ letter := "A", my_status := "ac" }], user_rank := none }, pendingProblemsData := some { contestId := "c1", source := "qoj", problems := [{ letter := "A", title := "P", solved := false, unsolved_stage := some "未看题", unsolved_custom_label := none, pass_count := none, attempt_count := none, notes := none }] } }
    { contestId := "c1", source := "qoj", problems := [{ letter := "A", title := "P", solved := false, unsolved_stage := some "未看题", unsolved_custom_label := none, pass_count := none, attempt_count := none, notes := none }] }
    rfl
  exact h.1.trans (by decide)

/-- Helper: a nonempty string has nonzero length. -/
theorem length_ne_zero_of_ne_empty (s : String) (h : s ≠ "") :
    (s.length = 0) = False := by
  rcases s with ⟨data⟩
  cases data with
  | nil => exact absurd rfl h
  | cons c t => simp [String.length]

/-- C7 counterexample: the claim says every submission with malformed or
missing required fields signals a validation failure and leaves staged
state untouched.  But `import_problems` checks only
`!contestId || !problems || problems.length === 0` — never the shape — so
the malformed payload `problems = "hello"` (truthy, `.length` 5) passes
validation, returns 200 success, and replaces the previously staged
batch. -/
theorem claim_C7_counterexample :
    importProblemsJS { pendingContestData := none, pendingProblemsData := some { contestId := "123", source := "qoj", problems := .arr [{ letter := "A", title := "P", solved := false, unsolved_stage := none, unsolved_custom_label := none, pass_count := none, attempt_count := none, notes := none }] } } (some "999") "qoj" (some (.str "hello"))
      = ({ pendingContestData := none, pendingProblemsData := some { contestId := "999", source := "qoj", problems := .str "hello" } }, .ok) := by
  decide

/-- C7 amended: the staging handlers validate only presence, truthiness and
non-emptiness of the required fields, never their shape.  Every submission
those checks reject — a batch submission with a missing/empty `contestId`
or a missing, falsy or zero-length `problems`, and a standings submission
with a missing/empty `contestId`, with no staged batch, or with a
`contestId` differing from the staged batch's — signals a validation
failure and leaves the entire staged state (batch and contest snapshot)
unchanged; but a malformed `problems` payload that is truthy with nonzero
length (for example a plain string) passes validation and replaces the
staged batch. -/
theorem claim_C7_presence_checks_only (st : RawServerState) (cid : Option String)
    (src : String) (ps : Option RawProblems)
    (stats : String → Option (Int × Int)) :
    ((cid = none ∨ cid = some "" ∨ ps = none ∨ ps = some (.arr []) ∨ ps = some (.str "")) →
      importProblemsJS st cid src ps = (st, .validationError)) ∧
    ((cid = none ∨ cid = some "") →
      importStandingsJS st cid stats = (st, .validationError)) ∧
    (st.pendingProblemsData = none →
      importStandingsJS st cid stats = (st, .validationError)) ∧
    (∀ pd c, st.pendingProblemsData = some pd → cid = some c →
      pd.contestId ≠ c →
      importStandingsJS st cid stats = (st, .validationError)) ∧
    (∀ c s, cid = some c → c ≠ "" → ps = some (.str s) → s ≠ "" →
      importProblemsJS st cid src ps
        = ({ st with pendingProblemsData := some ⟨c, src, .str s⟩ }, .ok)) := by
  refine ⟨?_, ?_, ?_, ?_, ?_⟩
  · intro h
    rcases h with rfl | rfl | rfl | rfl | rfl
    · cases ps <;> rfl
    · cases ps with
      | none => rfl
      | some p => simp [importProblemsJS]
    · cases cid <;> rfl
    · cases cid with
      | none => rfl
      | some c => simp [importProblemsJS, rawTruthy, rawLengthEqZero]
    · cases cid with
      | none => rfl
      | some c => simp [importProblemsJS, rawTruthy]
  · intro h
    rcases h with rfl | rfl
    · rfl
    · simp [importStandingsJS]
  · intro h
    cases cid with
    | none => rfl
    | some c =>
      by_cases hc : c = ""
      · subst hc; simp [importStandingsJS]
      · simp [importStandingsJS, hc, h]
  · intro pd c hpd hcid hne
    subst hcid
    by_cases hc : c = ""
    · subst hc; simp [importStandingsJS]
    · simp [importStandingsJS, hc, hpd, hne]
  · intro c s hc hcne hp hsne
    subst hc
    subst hp
    have hlen := length_ne_zero_of_ne_empty s hsne
    simp [importProblemsJS, hcne, hsne, rawTruthy, rawLengthEqZero, hlen]

/-- Witness for C7 amended: a mismatched standings submission against a
staged batch "123" is rejected with the state unchanged, and a malformed
(string) problems payload is accepted and staged verbatim. -/
theorem claim_C7_witness :
    importStandingsJS { pendingContestData := none, pendingProblemsData := some { contestId := "123", source := "qoj", problems := .arr [{ letter := "A", title := "P", solved := false, unsolved_stage := none, unsolved_custom_label := none, pass_count := none, attempt_count := none, notes := none }] } } (some "999") (fun _ => none)
      = ({ pendingContestData := none, pendingProblemsData := some { contestId := "123", source := "qoj", problems := .arr [{ letter := "A", title := "P", solved := false, unsolved_stage := none, unsolved_custom_label := none, pass_count := none, attempt_count := none, notes := none }] } }, .validationError) ∧
    importProblemsJS { pendingContestData := none, pendingProblemsData := none } (some "42") "src" (some (.str "oops"))
      = ({ pendingContestData := none, pendingProblemsData := some { contestId := "42", source := "src", problems := .str "oops" } }, .ok) := by
  constructor
  · exact (claim_C7_presence_checks_only { pendingContestData := none, pendingProblemsData := some { contestId := "123", source := "qoj", problems := .arr [{ letter := "A", title := "P", solved := false, unsolved_stage := none, unsolved_custom_label := none, pass_count := none, attempt_count := none, notes := none }] } } (some "999") "src" none (fun _ => none)).2.2.2.1
      { contestId := "123", source := "qoj", problems := .arr [{ letter := "A", title := "P", solved := false, unsolved_stage := none, unsolved_custom_label := none, pass_count := none, attempt_count := none, notes := none }] } "999" rfl rfl (by decide)
  · exact (claim_C7_presence_checks_only { pendingContestData := none, pendingProblemsData := none } (some "42") "src" (some (.str "oops")) (fun _ => none)).2.2.2.2
      "42" "oops" rfl (by decide) rfl (by decide)

/-- C8 counterexample: the claim says `createProblem` never takes id or
timestamp values from the caller's input, even when the input mapping
contains `id`/`created_at`/`updated_at` keys.  But the spread `...data` comes
after the generated fields in the object literal, so input-supplied keys
override the generated ones: at a concrete input carrying all three keys,
the returned record keeps the caller's values, not the fresh ones. -/
theorem claim_C8_counterexample :
    (createProblem "fresh-uuid" "2024-06-01T00:00:00Z" [] { id := some (.str "caller-id"), created_at := some (.str "1999-01-01"), updated_at := some (.str "1999-01-02"), title := some (.str "T") }).1.id = some (JVal.str "caller-id") ∧
    (createProblem "fresh-uuid" "2024-06-01T00:00:00Z" [] { id := some (.str "caller-id"), created_at := some (.str "1999-01-01"), updated_at := some (.str "1999-01-02"), title := some (.str "T") }).1.created_at = some (JVal.str "1999-01-01") ∧
    (createProblem "fresh-uuid" "2024-06-01T00:00:00Z" [] { id := some (.str "caller-id"), created_at := some (.str "1999-01-01"), updated_at := some (.str "1999-01-02"), title := some (.str "T") }).1.updated_at = some (JVal.str "1999-01-02") ∧
    "caller-id" ≠ "fresh-uuid" := by
  refine ⟨rfl, rfl, rfl, by decide⟩

/-- C8 amended: problem creation assigns the freshly generated id and sets
both timestamps to the current time only as defaults — they apply exactly
when the input mapping lacks the corresponding key; since the input is spread
after the generated fields, an input mapping that does contain `id`,
`created_at` or `updated_at` overrides them with the caller's values (and
`has_solution` is always forced to `false`). -/
theorem claim_C8_fresh_id_timestamps (genId now : String)
    (items : List ProblemRec) (data : ProblemRec) :
    (data.id = none →
      (createProblem genId now items data).1.id = some (.str genId)) ∧
    (data.created_at = none →
      (createProblem genId now items data).1.created_at = some (.str now)) ∧
    (data.updated_at = none →
      (createProblem genId now items data).1.updated_at = some (.str now)) ∧
    (∀ v, data.id = some v → (createProblem genId now items data).1.id = some v) ∧
    (∀ v, data.created_at = some v →
      (createProblem genId now items data).1.created_at = some v) ∧
    (∀ v, data.updated_at = some v →
      (createProblem genId now items data).1.updated_at = some v) ∧
    (createProblem genId now items data).1.has_solution = some (.bool false) := by
  refine ⟨fun h => ?_, fun h => ?_, fun h => ?_,
    fun v h => ?_, fun v h => ?_, fun v h => ?_, rfl⟩ <;>
    simp [createProblem, h]

/-- Witness for C8 amended: an input without id or timestamp keys receives
the generated id and the current time. -/
theorem claim_C8_witness :
    (createProblem "uuid-7" "2024-06-02T00:00:00Z" [] { title := some (.str "T") }).1.id = some (.str "uuid-7") ∧
    (createProblem "uuid-7" "2024-06-02T00:00:00Z" [] { title := some (.str "T") }).1.created_at = some (.str "2024-06-02T00:00:00Z") ∧
    (createProblem "uuid-7" "2024-06-02T00:00:00Z" [] { title := some (.str "T") }).1.updated_at = some (.str "2024-06-02T00:00:00Z") :=
  ⟨(claim_C8_fresh_id_timestamps "uuid-7" "2024-06-02T00:00:00Z" [] { title := some (.str "T") }).1 rfl,
   (claim_C8_fresh_id_timestamps "uuid-7" "2024-06-02T00:00:00Z" [] { title := some (.str "T") }).2.1 rfl,
   (claim_C8_fresh_id_timestamps "uuid-7" "2024-06-02T00:00:00Z" [] { title := some (.str "T") }).2.2.1 rfl⟩

/-- C9: in the UI submit handler, writing blank (whitespace-only or empty)
solution content for a problem id is the same operation as deleting the
solution, and afterwards no solution exists for that id — `solutionExists`
being exactly the read-time source of the derived `has_solution`. -/
theorem claim_C9_blank_is_delete (store : SolStore) (problemId content : String)
    (h : jsTrim content = "") :
    submitSolution store problemId content = deleteSolution store problemId ∧
    solutionExists (submitSolution store problemId content) problemId = false := by
  have hsub : submitSolution store problemId content = deleteSolution store problemId := by
    unfold submitSolution
    rw [if_neg (by simp [h])]
  refine ⟨hsub, ?_⟩
  rw [hsub]
  simp [solutionExists, deleteSolution]

/-- Witness for C9: submitting three spaces deletes the previously stored
solution for "p1" and `solutionExists` is false afterwards. -/
theorem claim_C9_witness :
    submitSolution (fun k => if k = "p1" then some "old" else none) "p1" "   "
        = deleteSolution (fun k => if k = "p1" then some "old" else none) "p1" ∧
    solutionExists (submitSolution (fun k => if k = "p1" then some "old" else none) "p1" "   ") "p1" = false :=
  claim_C9_blank_is_delete (fun k => if k = "p1" then some "old" else none) "p1" "   " (by decide)

/-- C10 (implicit): `createProblem` (and the `updateProblem` merge) spread
the caller's input verbatim over the base record without applying the Record
Normalizer — the created record keeps the input's `solved`,
`unsolved_stage`, `unsolved_custom_label`, `pass_count` and `assignee`
exactly, so a create with `solved = true` and a non-null stage stores a
record violating the canonical invariant; the invariant is re-established
only by `loadProblems`, which re-normalizes every record on each load. -/
theorem claim_C10_create_skips_normalizer (genId now : String)
    (items : List ProblemRec) (data : ProblemRec) (file : List ProblemRec)
    (sol : Option JVal → Bool) :
    ((createProblem genId now items data).1.solved = data.solved ∧
     (createProblem genId now items data).1.unsolved_stage = data.unsolved_stage ∧
     (createProblem genId now items data).1.unsolved_custom_label = data.unsolved_custom_label ∧
     (createProblem genId now items data).1.pass_count = data.pass_count ∧
     (createProblem genId now items data).1.assignee = data.assignee ∧
     (createProblem genId now items data).2 = items ++ [(createProblem genId now items data).1]) ∧
    (∀ old dnew now2, (updateMerge old dnew now2).solved = (dnew.solved).or old.solved ∧
      (updateMerge old dnew now2).unsolved_stage = (dnew.unsolved_stage).or old.unsolved_stage) ∧
    (∀ r ∈ loadProblems file sol,
      truthyO r.solved = true →
        r.unsolved_stage = some JVal.null ∧
        r.unsolved_custom_label = some JVal.null) := by
  refine ⟨⟨rfl, rfl, rfl, rfl, rfl, rfl⟩, fun old dnew now2 => ⟨rfl, rfl⟩, ?_⟩
  intro r hr hsol
  simp only [loadProblems, List.mem_map] at hr
  obtain ⟨x, hx, rfl⟩ := hr
  exact normalizeRecord_solved_null x hsol

/-- Witness for C10: creating with `solved = true` and stage not-viewed
returns a record violating the invariant, and loading the stored array
re-normalizes it back to a null stage. -/
theorem claim_C10_witness :
    ((createProblem "uuid-9" "2024-06-03T00:00:00Z" [] { title := some (.str "T"), solved := some (.bool true), unsolved_stage := some (.str "未看题") }).1.solved = some (JVal.bool true) ∧
     (createProblem "uuid-9" "2024-06-03T00:00:00Z" [] { title := some (.str "T"), solved := some (.bool true), unsolved_stage := some (.str "未看题") }).1.unsolved_stage = some (JVal.str "未看题")) ∧
    (((loadProblems [(createProblem "uuid-9" "2024-06-03T00:00:00Z" [] { title := some (.str "T"), solved := some (.bool true), unsolved_stage := some (.str "未看题") }).1] (fun _ => false)).headD {}).unsolved_stage = some JVal.null ∧
     ((loadProblems [(createProblem "uuid-9" "2024-06-03T00:00:00Z" [] { title := some (.str "T"), solved := some (.bool true), unsolved_stage := some (.str "未看题") }).1] (fun _ => false)).headD {}).unsolved_custom_label = some JVal.null) := by
  constructor
  · exact ⟨rfl, rfl⟩
  · exact (claim_C10_create_skips_normalizer "uuid-9" "2024-06-03T00:00:00Z" []
      { title := some (.str "T"), solved := some (.bool true), unsolved_stage := some (.str "未看题") }
      [(createProblem "uuid-9" "2024-06-03T00:00:00Z" [] { title := some (.str "T"), solved := some (.bool true), unsolved_stage := some (.str "未看题") }).1]
      (fun _ => false)).2.2 _ (List.Mem.head _) (by decide)
